import Mathlib

/-!
Verification development for the phpricetracker PDF price-extraction pipeline.

The JavaScript sources are shallowly embedded below: numbers are modelled as
rationals (every numeric literal handled by the parsers is a short decimal,
and the only operations used are +, min, max and /), JavaScript `NaN` as
`Option.none`, and the JavaScript regular expressions as explicit abstract
syntax trees interpreted by a backtracking matcher with the same
leftmost-match, greedy/lazy and capture-group semantics.
-/

namespace PhPriceTracker

/-! ### JavaScript string primitives -/

/-- JavaScript whitespace class `\s` restricted to the ASCII whitespace
characters (space, tab, line feed, carriage return, vertical tab, form feed),
the only ones that occur in the bulletin text streams. -/
def jsIsSpace (c : Char) : Bool :=
  c = ' ' || c = '\t' || c = '\n' || c = '\r' || c = Char.ofNat 11 || c = Char.ofNat 12

/-- Regex class `\d`. -/
def jsIsDigit (c : Char) : Bool := '0' ≤ c && c ≤ '9'

/-- Regex class `[a-zA-Z]`. -/
def jsIsAlpha (c : Char) : Bool := ('a' ≤ c && c ≤ 'z') || ('A' ≤ c && c ≤ 'Z')

/-- Regex class `\w` = `[A-Za-z0-9_]`. -/
def jsIsWordChar (c : Char) : Bool := jsIsAlpha c || jsIsDigit c || c = '_'

/-- JavaScript `String.prototype.toLowerCase` on the ASCII range. -/
def jsToLower (s : String) : String := String.mk (s.data.map Char.toLower)

/-- JavaScript `String.prototype.toUpperCase` on the ASCII range. -/
def jsToUpper (s : String) : String := String.mk (s.data.map Char.toUpper)

/-- JavaScript `String.prototype.trim`. -/
def jsTrim (s : String) : String :=
  String.mk (((s.data.dropWhile jsIsSpace).reverse.dropWhile jsIsSpace).reverse)

/-- Substring test on character lists (`needle` occurs somewhere in `hay`). -/
def listIncludes (hay needle : List Char) : Bool :=
  hay.tails.any (fun t => needle.isPrefixOf t)

/-- JavaScript `String.prototype.includes`. -/
def jsIncludes (s sub : String) : Bool := listIncludes s.data sub.data

/-- Core of `replace(/\s+/g, " ")`: every maximal whitespace run becomes one
space (emitted at the run's last character). -/
def collapseWS : List Char → List Char
  | [] => []
  | [c] => if jsIsSpace c then [' '] else [c]
  | c :: d :: rest =>
    if jsIsSpace c then
      if jsIsSpace d then collapseWS (d :: rest)
      else ' ' :: collapseWS (d :: rest)
    else c :: collapseWS (d :: rest)

/-- JavaScript `replace(/\s+/g, " ")`. -/
def jsCollapseWhitespace (s : String) : String := String.mk (collapseWS s.data)

/-- JavaScript `padStart(2, "0")`. -/
def jsPadStart2 (s : String) : String :=
  if s.length < 2 then String.mk (List.replicate (2 - s.length) '0' ++ s.data) else s

/-- Structural splitter on a single separator character, with the JavaScript
`String.prototype.split` behaviour (an empty string yields `[""]`). -/
def splitCharAux (sep : Char) : List Char → List Char → List String
  | [], acc => [String.mk acc.reverse]
  | c :: rest, acc =>
    if c = sep then String.mk acc.reverse :: splitCharAux sep rest []
    else splitCharAux sep rest (c :: acc)

/-- JavaScript `str.split(sep)` for a one-character separator. -/
def jsSplitChar (sep : Char) (s : String) : List String := splitCharAux sep s.data []

/-- JavaScript truthiness of a possibly-undefined string (`undefined` and `""` are falsy). -/
def jsTruthy : Option String → Bool
  | none => false
  | some s => s ≠ ""

/-! ### JavaScript parseFloat, modelled on rationals

`NaN` is modelled as `none`.  The model covers sign, integer digits and an
optional fractional part, the exact forms produced by the parsers' regex
captures (none of which can contain an exponent). -/

/-- Decimal digits to a natural number. -/
def digitsToNat (ds : List Char) : Nat :=
  ds.foldl (fun acc c => 10 * acc + (c.toNat - '0'.toNat)) 0

/-- Model of JavaScript `parseFloat`; returns `none` exactly when `parseFloat`
returns `NaN` on the covered input forms. -/
def parseFloatQ (s : String) : Option ℚ :=
  let cs := s.data.dropWhile jsIsSpace
  let signed : ℚ × List Char :=
    match cs with
    | '-' :: rest => (-1, rest)
    | '+' :: rest => (1, rest)
    | _ => (1, cs)
  let intPart := signed.2.takeWhile jsIsDigit
  let rest := signed.2.dropWhile jsIsDigit
  let fracPart :=
    match rest with
    | '.' :: r => r.takeWhile jsIsDigit
    | _ => []
  if intPart = [] && fracPart = [] then none
  else some (signed.1 * ((digitsToNat intPart : ℚ) +
    (digitsToNat fracPart : ℚ) / ((10 : ℚ) ^ fracPart.length)))

/-! ### Regular expressions

Abstract syntax mirroring the JavaScript regex literals of the sources, with a
backtracking interpreter in continuation-passing style.  Greedy (`*`, `+`, `?`,
`{n,m}`) and lazy (`*?`) quantifiers, capture groups, alternation, and the
anchors `^`/`$` are supported; `searchAt` realises the leftmost-match rule. -/

inductive Regex where
  | eps : Regex
  | cls : (Char → Bool) → Regex
  | seq : Regex → Regex → Regex
  | alt : Regex → Regex → Regex
  | star : Regex → Regex
  | starLazy : Regex → Regex
  | opt : Regex → Regex
  | group : Nat → Regex → Regex
  | bol : Regex
  | eol : Regex

/-- Number of capture groups (for the `length` of a JavaScript match array). -/
def Regex.groupCount : Regex → Nat
  | .eps => 0
  | .cls _ => 0
  | .bol => 0
  | .eol => 0
  | .seq a b => a.groupCount + b.groupCount
  | .alt a b => a.groupCount + b.groupCount
  | .star r => r.groupCount
  | .starLazy r => r.groupCount
  | .opt r => r.groupCount
  | .group _ r => r.groupCount + 1

/-- Captures recorded along the currently explored backtracking path:
group index paired with the captured substring (later entries shadow earlier
ones, as in JavaScript where a group capture is overwritten per iteration). -/
abbrev Caps := List (Nat × String)

/-- Backtracking matcher.  `matchCore fuel r s pos caps k` tries to match `r`
against the suffix `s` (which starts at absolute position `pos` of the subject
string), extending captures `caps`, and calls the continuation `k` on every
candidate way of matching, in the priority order prescribed by JavaScript
semantics (greedy prefers longer, lazy prefers shorter, `alt` prefers the left
branch).  The fuel only bounds the recursion depth; it is chosen large enough
at every call site to be irrelevant. -/
def matchCore : Nat → Regex → List Char → Nat → Caps →
    (List Char → Nat → Caps → Option (Nat × Caps)) → Option (Nat × Caps)
  | 0, _, _, _, _, _ => none
  | _ + 1, .eps, s, pos, caps, k => k s pos caps
  | _ + 1, .cls p, s, pos, caps, k =>
    match s with
    | [] => none
    | c :: rest => if p c then k rest (pos + 1) caps else none
  | fuel + 1, .seq a b, s, pos, caps, k =>
    matchCore fuel a s pos caps (fun s' pos' caps' => matchCore fuel b s' pos' caps' k)
  | fuel + 1, .alt a b, s, pos, caps, k =>
    match matchCore fuel a s pos caps k with
    | some res => some res
    | none => matchCore fuel b s pos caps k
  | fuel + 1, .star r, s, pos, caps, k =>
    match matchCore fuel r s pos caps (fun s' pos' caps' =>
        if pos' = pos then none else matchCore fuel (.star r) s' pos' caps' k) with
    | some res => some res
    | none => k s pos caps
  | fuel + 1, .starLazy r, s, pos, caps, k =>
    match k s pos caps with
    | some res => some res
    | none =>
      matchCore fuel r s pos caps (fun s' pos' caps' =>
        if pos' = pos then none else matchCore fuel (.starLazy r) s' pos' caps' k)
  | fuel + 1, .opt r, s, pos, caps, k =>
    match matchCore fuel r s pos caps k with
    | some res => some res
    | none => k s pos caps
  | fuel + 1, .group i r, s, pos, caps, k =>
    matchCore fuel r s pos caps (fun s' pos' caps' =>
      k s' pos' ((i, String.mk (s.take (pos' - pos))) :: caps'))
  | _ + 1, .bol, s, pos, caps, k => if pos = 0 then k s pos caps else none
  | _ + 1, .eol, s, pos, caps, k => if s = [] then k s pos caps else none

/-- Fuel that dwarfs the recursion depth of any match attempt on `s` for the
regexes embedded in this file. -/
def fuelFor (s : List Char) : Nat := 1000 * (s.length + 2)

/-- One JavaScript match-array: `fullMatch` is `m[0]`, `length` the array
length (`1 +` group count), and `get i` is `m[i]` (`none` for a group that did
not participate, i.e. JavaScript `undefined`). -/
structure JsMatch where
  fullMatch : String
  length : Nat
  caps : Caps
deriving Repr

def JsMatch.get (m : JsMatch) (i : Nat) : Option String :=
  (m.caps.find? (fun p => p.1 = i)).map (fun p => p.2)

/-- Try to match `r` anchored at position `startPos` of `full`. -/
def matchAt (r : Regex) (full : List Char) (startPos : Nat) : Option (Nat × Caps) :=
  matchCore (fuelFor full) r (full.drop startPos) startPos []
    (fun _ pos caps => some (pos, caps))

/-- Scan positions `startPos, startPos+1, ...` for the leftmost match, as
JavaScript `RegExp.prototype.exec` does; `tries` counts remaining positions. -/
def searchAux (r : Regex) (full : List Char) : Nat → Nat → Option (Nat × Nat × Caps)
  | 0, _ => none
  | tries + 1, startPos =>
    match matchAt r full startPos with
    | some (endPos, caps) => some (startPos, endPos, caps)
    | none => searchAux r full tries (startPos + 1)

/-- Package a raw search result into a match array. -/
def mkJsMatch (r : Regex) (full : List Char) (startPos endPos : Nat) (caps : Caps) : JsMatch :=
  { fullMatch := String.mk ((full.drop startPos).take (endPos - startPos))
    length := r.groupCount + 1
    caps := caps }

/-- JavaScript `str.match(re)` for a regex without the `g` flag (equivalently
`re.exec(str)` with `lastIndex = 0`): the leftmost match, or `none`. -/
def jsMatch (r : Regex) (s : String) : Option JsMatch :=
  match searchAux r s.data (s.data.length + 1) 0 with
  | some (st, en, caps) => some (mkJsMatch r s.data st en caps)
  | none => none

/-- Iterated matching for a regex with the `g` flag: after each match the scan
resumes at its end (advancing by one on an empty match; the regexes in this
file never match the empty string). -/
def execAllAux (r : Regex) (full : List Char) : Nat → Nat → List JsMatch
  | 0, _ => []
  | tries + 1, startIdx =>
    match searchAux r full (full.length + 1 - startIdx) startIdx with
    | none => []
    | some (st, en, caps) =>
      mkJsMatch r full st en caps ::
        execAllAux r full tries (if en = st then en + 1 else en)

/-- All matches of a `g`-flagged regex, in order: the `while ((m = re.exec(line)))`
loops of the sources. -/
def execAll (r : Regex) (s : String) : List JsMatch :=
  execAllAux r s.data (s.data.length + 1) 0

/-- JavaScript `str.match(re)` for a `g`-flagged regex: the list of matched
substrings, with `null` modelled as the empty list. -/
def jsMatchAll (r : Regex) (s : String) : List String :=
  (execAll r s).map (fun m => m.fullMatch)

/-- JavaScript `re.test(str)`. -/
def jsTest (r : Regex) (s : String) : Bool := (jsMatch r s).isSome

/-! ### Regex construction helpers -/

/-- Literal character (case-sensitive). -/
def rchar (c : Char) : Regex := .cls (fun d => d = c)

/-- Literal character under the `i` flag (ASCII case-insensitive). -/
def rchari (c : Char) : Regex := .cls (fun d => d.toLower = c.toLower)

/-- Literal string (case-sensitive). -/
def rstr (s : String) : Regex := s.data.foldr (fun c r => .seq (rchar c) r) .eps

/-- Literal string under the `i` flag. -/
def rstri (s : String) : Regex := s.data.foldr (fun c r => .seq (rchari c) r) .eps

/-- Concatenation of a list of regexes. -/
def rcat (rs : List Regex) : Regex := rs.foldr .seq .eps

/-- Greedy `+`. -/
def rplus (r : Regex) : Regex := .seq r (.star r)

/-- Greedy `{1,2}`. -/
def rep12 (r : Regex) : Regex := .seq r (.opt r)

/-- Exact repetition `{n}`. -/
def repExact : Nat → Regex → Regex
  | 0, _ => .eps
  | n + 1, r => .seq r (repExact n r)

def rdigit : Regex := .cls jsIsDigit
def rword : Regex := .cls jsIsWordChar
def rspace : Regex := .cls jsIsSpace
def spacePlus : Regex := rplus rspace
def spaceStar : Regex := .star rspace
def digitPlus : Regex := rplus rdigit

/-- `(\d+(?:\.\d{1,2})?)` with capture group index `i` — the decimal-number
capture used throughout the DA parsers. -/
def numG (i : Nat) : Regex :=
  .group i (.seq digitPlus (.opt (.seq (rchar '.') (rep12 rdigit))))

/-- `\s*-\s*`. -/
def dashSep : Regex := rcat [spaceStar, rchar '-', spaceStar]

/-- Capture of an exact digit count `(\d{n})`. -/
def digG (i n : Nat) : Regex := .group i (repExact n rdigit)

/-- Capture `(\d{1,2})`. -/
def dig12G (i : Nat) : Regex := .group i (rep12 rdigit)

/-! ### Record types

One Lean structure per record shape of the sources; `Option` fields model
JavaScript fields that some parsers set and others leave absent
(`filename: null`/assigned later, `market`, `category_header`). -/

/-- A DA single-price record as built by `parseGenericFormat`. -/
structure PriceEntry where
  commodity : String
  unit : String
  price : ℚ
  source : String
  region : String
  date : String
  category : String
  hasRange : Bool
  filename : Option String
deriving DecidableEq, Repr

/-- A DA price-range record as built by `parseNCRFormat`, `parseRXFormat` and
`parseGenericFormat`.  `market` is set only by the NCR parser and
`categoryHeader` (source key `category_header`) only by the RX parser. -/
structure RangeEntry where
  commodity : String
  unit : String
  minPrice : ℚ
  maxPrice : ℚ
  averagePrice : ℚ
  source : String
  region : String
  date : String
  category : String
  hasRange : Bool
  filename : Option String
  market : Option String
  categoryHeader : Option String
deriving DecidableEq, Repr

/-- A DOE fuel-price record as built by the DOE `extractPricesFromText`. -/
structure DOEEntry where
  commodity : String
  unit : String
  price : ℚ
  source : String
  region : String
  date : String
  fuelType : String
  brand : Option String
  filename : Option String
deriving DecidableEq, Repr

/-- A DTI SRP record as built by `parseDTIPDF`.  The price is stored without
any validity check in the source, so it is an `Option ℚ` (`none` = `NaN`). -/
structure DTIEntry where
  commodity : String
  unit : String
  price : Option ℚ
  source : String
  region : String
  date : String
deriving DecidableEq, Repr

namespace DA

/-! ### DA parser (`da_parser.js`): constants and lexicons -/

def SOURCE : String := "DA"

/-- Default date used when no filename pattern matches. -/
def DATE : String := "2025-06-26"

/-- The `COMMODITY_CATEGORIES` table, in source order. -/
def COMMODITY_CATEGORIES : List (String × List String) :=
  [("rice", ["rice", "bigas", "palay", "white rice", "brown rice", "special", "premium",
      "well milled", "regular milled"]),
   ("vegetables", ["vegetables", "gulay", "tomato", "onion", "garlic", "potato", "cabbage",
      "carrot"]),
   ("fruits", ["fruits", "prutas", "banana", "apple", "orange", "mango", "papaya"]),
   ("meat", ["meat", "karne", "pork", "beef", "chicken", "fish", "bangus", "tilapia",
      "galunggong"]),
   ("dairy", ["dairy", "milk", "cheese", "butter", "eggs"]),
   ("grains", ["grains", "corn", "wheat", "flour"]),
   ("sugar", ["sugar", "asukal"]),
   ("oil", ["oil", "cooking oil", "vegetable oil"])]

/-- `normalizeCommodityType`: first category (in table order) one of whose
variations occurs in the lower-cased commodity, else `"other"`. -/
def normalizeCommodityType (commodity : String) : String :=
  let lowerCommodity := jsToLower commodity
  match COMMODITY_CATEGORIES.find? (fun p => p.2.any (fun v => jsIncludes lowerCommodity v)) with
  | some p => p.1
  | none => "other"

/-- The `MARKET_NAMES` table for the NCR format. -/
def MARKET_NAMES : List String :=
  ["Agora Public Market", "Balintawak", "Bicutan Market", "Cartimar Market",
   "Commonwealth Market", "Dagonoy Market", "Guadalupe Public Market",
   "Kamuning Public Market", "La Huerta Market", "New Las Piñas City Public Market",
   "Malabon Central Market", "Mandaluyong Public Market", "Marikina Public Market",
   "Maypajo Public Market", "Mega Q-mart", "Navotas Fish Port", "Pasig City Market",
   "Quiapo Market", "San Andres Market", "Sta. Ana Market", "Taguig Market",
   "Valenzuela Market", "Vitas Market"]

/-! ### DA date extraction -/

/-- Date pattern 1: `/(\d{2})(\d{2})(\d{4})/` (MMDDYYYY). -/
def datePat1 : Regex := rcat [digG 1 2, digG 2 2, digG 3 4]

/-- Date pattern 2: `/(\d{4})-(\d{2})-(\d{2})/` (YYYY-MM-DD). -/
def datePat2 : Regex := rcat [digG 1 4, rchar '-', digG 2 2, rchar '-', digG 3 2]

/-- Date pattern 3: `/(\d{2})-(\d{2})-(\d{4})/` (MM-DD-YYYY). -/
def datePat3 : Regex := rcat [digG 1 2, rchar '-', digG 2 2, rchar '-', digG 3 4]

/-- Date pattern 4: `/(\d{1,2})\/(\d{1,2})\/(\d{4})/` (M/D/YYYY). -/
def datePat4 : Regex := rcat [dig12G 1, rchar '/', dig12G 2, rchar '/', digG 3 4]

/-- Date pattern 5: `/(\d{4})(\d{2})(\d{2})/` (YYYYMMDD). -/
def datePat5 : Regex := rcat [digG 1 4, digG 2 2, digG 3 2]

/-- Date pattern 6: `/(\w+)\s+(\d{1,2}),?\s+(\d{4})/` (Month DD, YYYY). -/
def datePat6 : Regex :=
  rcat [.group 1 (rplus rword), spacePlus, dig12G 2, .opt (rchar ','), spacePlus, digG 3 4]

/-- Date pattern 7: `/(\d{1,2})\/(\d{1,2})\/(\d{2})/` (MM/DD/YY). -/
def datePat7 : Regex := rcat [dig12G 1, rchar '/', dig12G 2, rchar '/', digG 3 2]

/-- Date pattern 8: `/April\s+(\d{1,2}),?\s+(\d{4})/`. -/
def datePat8 : Regex := rcat [rstr "April", spacePlus, dig12G 1, .opt (rchar ','), spacePlus, digG 2 4]

/-- Date pattern 9: `/June\s+(\d{1,2}),?\s+(\d{4})/`. -/
def datePat9 : Regex := rcat [rstr "June", spacePlus, dig12G 1, .opt (rchar ','), spacePlus, digG 2 4]

/-- The `datePatterns` array of the DA parser, in source order. -/
def datePatterns : List Regex :=
  [datePat1, datePat2, datePat3, datePat4, datePat5, datePat6, datePat7, datePat8, datePat9]

/-- The branch cascade executed on a successful pattern match.  Returns `none`
exactly when the source falls through to the next pattern (a match whose first
capture has length other than 4 and 2 and is neither `"April"` nor `"June"`). -/
def dateOfMatch (m : JsMatch) : Option String :=
  let g1 := (m.get 1).getD ""
  let g2 := (m.get 2).getD ""
  let g3 := (m.get 3).getD ""
  if g1.length = 4 then
    some (g1 ++ "-" ++ g2 ++ "-" ++ g3)
  else if g1.length = 2 then
    some (g3 ++ "-" ++ jsPadStart2 g1 ++ "-" ++ jsPadStart2 g2)
  else if g1 = "April" || g1 = "June" then
    let month := if g1 = "April" then "04" else "06"
    some (g2 ++ "-" ++ month ++ "-" ++ (if g1 = "April" then "07" else "26"))
  else none

/-- `extractDateFromFilename` of the DA parser. -/
def extractDateFromFilename (filename : String) : String :=
  (datePatterns.findSome? (fun pat => (jsMatch pat filename).bind dateOfMatch)).getD DATE

/-! ### NCR format parser -/

/-- NCR price pattern 1 (single range):
`/(\d+(?:\.\d{1,2})?)\s*-\s*(\d+(?:\.\d{1,2})?)/g`. -/
def ncrPat1 : Regex := rcat [numG 1, dashSep, numG 2]

/-- NCR price pattern 2 (two concatenated ranges). -/
def ncrPat2 : Regex := rcat [numG 1, dashSep, numG 2, numG 3, dashSep, numG 4]

/-- NCR price pattern 3 (four concatenated ranges). -/
def ncrPat3 : Regex :=
  rcat [numG 1, dashSep, numG 2, numG 3, dashSep, numG 4,
        numG 5, dashSep, numG 6, numG 7, dashSep, numG 8]

def ncrPricePatterns : List Regex := [ncrPat1, ncrPat2, ncrPat3]

/-- The market-name test of `parseNCRFormat`. -/
def isMarketName (line : String) : Bool :=
  MARKET_NAMES.any (fun market => jsIncludes (jsToLower line) (jsToLower market))

/-- Range records extracted from one non-market line of an NCR bulletin. -/
def ncrRangesOfLine (currentMarket region date line : String) : List RangeEntry :=
  ncrPricePatterns.flatMap (fun pat =>
    (execAll pat line).filterMap (fun m =>
      if 3 ≤ m.length then
        match (m.get 1).bind parseFloatQ, (m.get 2).bind parseFloatQ with
        | some minPrice, some maxPrice =>
          if minPrice > 0 ∧ maxPrice > 0 ∧ maxPrice ≥ minPrice then
            some { commodity := if currentMarket ≠ "" then "Rice at " ++ currentMarket else "Rice"
                   unit := "per kg"
                   minPrice := minPrice
                   maxPrice := maxPrice
                   averagePrice := (minPrice + maxPrice) / 2
                   source := SOURCE
                   region := region
                   date := date
                   category := "rice"
                   hasRange := true
                   filename := none
                   market := some currentMarket
                   categoryHeader := none }
          else none
        | _, _ => none
      else none))

/-- One iteration of the `parseNCRFormat` line loop; the state is the rolling
`currentMarket` and the accumulated `priceRanges`. -/
def ncrStep (region date : String) (st : String × List RangeEntry) (rawLine : String) :
    String × List RangeEntry :=
  let line := jsTrim rawLine
  if line = "" || line.length < 3 then st
  else if isMarketName line then (line, st.2)
  else (st.1, st.2 ++ ncrRangesOfLine st.1 region date line)

/-- `parseNCRFormat`: the `results` list is never written to by the source. -/
def parseNCRFormat (lines : List String) (region date : String) :
    List PriceEntry × List RangeEntry :=
  ([], (lines.foldl (ncrStep region date) ("", [])).2)

/-! ### RX format parser -/

/-- Optional leading tag `(\w+\s+tag)?` of RX pattern 1. -/
def rxTagGroup : Regex := .opt (.group 1 (rcat [rplus rword, spacePlus, rstr "tag"]))

/-- Optional size descriptor `(\w+\([^)]+\))?` of RX patterns 2 and 3. -/
def rxSizeGroup : Regex :=
  .opt (.group 1 (rcat [rplus rword, rchar '(', rplus (.cls (fun c => c ≠ ')')), rchar ')']))

/-- RX pattern 1: optional tag followed by six concatenated numbers. -/
def rxPat1 : Regex := rcat [rxTagGroup, numG 2, numG 3, numG 4, numG 5, numG 6, numG 7]

/-- RX pattern 2: `n/an/an/a` placeholders before three numbers. -/
def rxPat2 : Regex := rcat [rxSizeGroup, rstr "n/an/an/a", numG 2, numG 3, numG 4]

/-- RX pattern 3: three numbers before `n/an/an/a` placeholders. -/
def rxPat3 : Regex := rcat [rxSizeGroup, numG 2, numG 3, numG 4, rstr "n/an/an/a"]

/-- RX pattern 4: six concatenated numbers. -/
def rxPat4 : Regex := rcat [numG 1, numG 2, numG 3, numG 4, numG 5, numG 6]

def rxPricePatterns : List Regex := [rxPat1, rxPat2, rxPat3, rxPat4]

/-- Category-header test of `parseRXFormat`. -/
def rxIsCategoryHeader (line : String) : Bool :=
  jsIncludes line "IMPORTED COMMERCIAL RICE" || jsIncludes line "LOCAL COMMERCIAL RICE" ||
  jsIncludes line "FISH" || jsIncludes line "MEAT" ||
  jsIncludes line "VEGETABLES" || jsIncludes line "FRUITS"

/-- Commodity-grade test of `parseRXFormat`. -/
def rxIsCommodityLine (line : String) : Bool :=
  jsIncludes line "Special" || jsIncludes line "Premium" ||
  jsIncludes line "Well milled" || jsIncludes line "Regular milled" ||
  jsIncludes line "Bangus" || jsIncludes line "Tilapia" || jsIncludes line "Galunggong"

/-- `match.slice(1).filter(p => p && !isNaN(parseFloat(p))).map(p => parseFloat(p))`. -/
def rxPricesOfMatch (m : JsMatch) : List ℚ :=
  (List.range (m.length - 1)).filterMap (fun j =>
    match m.get (j + 1) with
    | some p => if p ≠ "" then parseFloatQ p else none
    | none => none)

/-- Range records extracted from one data line of an RX bulletin. -/
def rxRangesOfLine (currentCategory currentCommodity region date line : String) :
    List RangeEntry :=
  rxPricePatterns.flatMap (fun pat =>
    (execAll pat line).filterMap (fun m =>
      if 4 ≤ m.length then
        let prices := rxPricesOfMatch m
        if 2 ≤ prices.length then
          let minPrice := prices.foldl min (prices.headD 0)
          let maxPrice := prices.foldl max (prices.headD 0)
          let avgPrice := prices.foldl (· + ·) 0 / (prices.length : ℚ)
          if minPrice > 0 ∧ maxPrice > 0 ∧ maxPrice ≥ minPrice then
            let commodity := if currentCommodity ≠ "" then currentCommodity else "Rice"
            let unit := if jsIncludes line "pcs/kg" then "per kg" else "per kg"
            some { commodity := commodity
                   unit := unit
                   minPrice := minPrice
                   maxPrice := maxPrice
                   averagePrice := avgPrice
                   source := SOURCE
                   region := region
                   date := date
                   category := normalizeCommodityType commodity
                   hasRange := true
                   filename := none
                   market := none
                   categoryHeader := some currentCategory }
          else none
        else none
      else none))

/-- One iteration of the `parseRXFormat` line loop; the state is
`(currentCategory, currentCommodity, priceRanges)`. -/
def rxStep (region date : String) (st : String × String × List RangeEntry)
    (rawLine : String) : String × String × List RangeEntry :=
  let line := jsTrim rawLine
  if line = "" || line.length < 3 then st
  else if rxIsCategoryHeader line then (line, st.2.1, st.2.2)
  else if rxIsCommodityLine line then (st.1, line, st.2.2)
  else (st.1, st.2.1, st.2.2 ++ rxRangesOfLine st.1 st.2.1 region date line)

/-- `parseRXFormat`: the `results` list is never written to by the source. -/
def parseRXFormat (lines : List String) (region date : String) :
    List PriceEntry × List RangeEntry :=
  ([], (lines.foldl (rxStep region date) ("", "", [])).2.2)

/-! ### Generic/fallback format parser -/

/-- Capture `([a-zA-Z\s]+)`. -/
def alphaSpaceG (i : Nat) : Regex := .group i (rplus (.cls (fun c => jsIsAlpha c || jsIsSpace c)))

/-- Generic pattern 1: `/^([a-zA-Z\s]+)\s+(\d+(?:\.\d{1,2})?)/i`. -/
def genPat1 : Regex := rcat [.bol, alphaSpaceG 1, spacePlus, numG 2]

/-- Unit alternation `(kg|g|liter|l|piece|pc|pcs)` of generic pattern 2. -/
def genUnitAlt : Regex :=
  .alt (rstri "kg") (.alt (rstri "g") (.alt (rstri "liter") (.alt (rstri "l")
    (.alt (rstri "piece") (.alt (rstri "pc") (rstri "pcs"))))))

/-- Generic pattern 2:
`/^([a-zA-Z\s]+)\s+(?:per\s+)?(kg|g|liter|l|piece|pc|pcs)\s+(\d+(?:\.\d{1,2})?)/i`. -/
def genPat2 : Regex :=
  rcat [.bol, alphaSpaceG 1, spacePlus, .opt (.seq (rstri "per") spacePlus),
        .group 2 genUnitAlt, spacePlus, numG 3]

/-- Generic pattern 3: `/^(\d+(?:\.\d{1,2})?)\s+([a-zA-Z\s]+)/i`. -/
def genPat3 : Regex := rcat [.bol, numG 1, spacePlus, alphaSpaceG 2]

/-- Generic pattern 4 (range):
`/^([a-zA-Z\s]+)\s+(\d+(?:\.\d{1,2})?)\s*-\s*(\d+(?:\.\d{1,2})?)/i`. -/
def genPat4 : Regex := rcat [.bol, alphaSpaceG 1, spacePlus, numG 2, dashSep, numG 3]

/-- Generic pattern 5 (two bare numbers as a range):
`/^([a-zA-Z\s]+)\s+(\d+(?:\.\d{1,2})?)\s+(\d+(?:\.\d{1,2})?)/i`. -/
def genPat5 : Regex := rcat [.bol, alphaSpaceG 1, spacePlus, numG 2, spacePlus, numG 3]

/-- The `PRICE_PATTERNS` array of `parseGenericFormat`, in source order. -/
def PRICE_PATTERNS : List Regex := [genPat1, genPat2, genPat3, genPat4, genPat5]

/-- Variable assignments of the `switch (patternIndex)` of `parseGenericFormat`:
`(commodity, price, unit, minPrice, maxPrice)`; `unit` starts as `"per kg"`
and is reassigned only by pattern 2 (whose group 2 always participates). -/
def genAssign (patternIndex : Nat) (m : JsMatch) :
    Option String × Option String × String × Option String × Option String :=
  match patternIndex with
  | 0 => (m.get 1, m.get 2, "per kg", none, none)
  | 1 => (m.get 1, m.get 3, (m.get 2).getD "per kg", none, none)
  | 2 => (m.get 2, m.get 1, "per kg", none, none)
  | 3 => (m.get 1, none, "per kg", m.get 2, m.get 3)
  | _ => (m.get 1, none, "per kg", m.get 2, m.get 3)

/-- Boilerplate tokens rejected in a commodity string by `parseGenericFormat`. -/
def genHeaderWords : List String := ["page", "monitoring", "price", "date", "region", "province"]

/-- The commodity cleanup `commodity ? commodity.trim().replace(/\s+/g, ' ') : ''`. -/
def genCleanCommodity (o : Option String) : String :=
  if jsTruthy o then jsCollapseWhitespace (jsTrim (o.getD "")) else ""

/-- Records extracted from one line by `parseGenericFormat`: the five patterns
are tried in order with first match winning; a matching line yields at most
one single-price record or one range record. -/
def genericRecordsOfLine (region date line : String) :
    List PriceEntry × List RangeEntry :=
  match (PRICE_PATTERNS.enum.findSome? (fun ip =>
      (jsMatch ip.2 line).map (fun m => (ip.1, m)))) with
  | none => ([], [])
  | some (patternIndex, m) =>
    let a := genAssign patternIndex m
    let commodity := genCleanCommodity a.1
    let lc := jsToLower commodity
    if commodity.length < 2 || genHeaderWords.any (fun w => jsIncludes lc w) then ([], [])
    else
      let ranges :=
        if jsTruthy a.2.2.2.1 && jsTruthy a.2.2.2.2 then
          match parseFloatQ ((a.2.2.2.1).getD ""), parseFloatQ ((a.2.2.2.2).getD "") with
          | some mn, some mx =>
            if mn > 0 ∧ mx > 0 ∧ mx ≥ mn then
              [{ commodity := commodity
                 unit := a.2.2.1
                 minPrice := mn
                 maxPrice := mx
                 averagePrice := (mn + mx) / 2
                 source := SOURCE
                 region := region
                 date := date
                 category := normalizeCommodityType commodity
                 hasRange := true
                 filename := none
                 market := none
                 categoryHeader := none }]
            else []
          | _, _ => []
        else []
      let singles :=
        if jsTruthy a.2.1 then
          match parseFloatQ ((a.2.1).getD "") with
          | some singlePrice =>
            if singlePrice > 0 ∧ singlePrice < 10000 then
              [{ commodity := commodity
                 unit := a.2.2.1
                 price := singlePrice
                 source := SOURCE
                 region := region
                 date := date
                 category := normalizeCommodityType commodity
                 hasRange := false
                 filename := none }]
            else []
          | none => []
        else []
      (singles, ranges)

/-- One iteration of the `parseGenericFormat` line loop. -/
def genStep (region date : String) (st : List PriceEntry × List RangeEntry)
    (rawLine : String) : List PriceEntry × List RangeEntry :=
  let line := jsTrim rawLine
  if line = "" || line.length < 3 then st
  else
    let recs := genericRecordsOfLine region date line
    (st.1 ++ recs.1, st.2 ++ recs.2)

/-- `parseGenericFormat`. -/
def parseGenericFormat (lines : List String) (region date : String) :
    List PriceEntry × List RangeEntry :=
  lines.foldl (genStep region date) ([], [])

/-- `extractPricesFromText` of the DA parser: format dispatch on the region. -/
def extractPricesFromText (text region date : String) :
    List PriceEntry × List RangeEntry :=
  let lines := jsSplitChar '\n' text
  if region = "NCR" then parseNCRFormat lines region date
  else if region = "RX" then parseRXFormat lines region date
  else parseGenericFormat lines region date

/-! ### DA batch orchestration (`parseAllDAPDFs`)

File reading and PDF decoding are external effects; a file is modelled by its
name together with the outcome `parseDAPDF` would produce for it: either the
extracted record lists or the message of the error thrown (unreadable file or
undecodable PDF). -/

structure DAFile where
  filename : String
  outcome : Except String (List PriceEntry × List RangeEntry)

/-- The per-file try/catch loop of `parseAllDAPDFs`: successful outcomes are
tagged with their filename and appended to the aggregates; a thrown error is
logged (filename and message) and the loop continues with the next file. -/
def parseAllDAPDFs (files : List DAFile) :
    (List PriceEntry × List RangeEntry) × List (String × String) :=
  files.foldl (fun acc f =>
    match f.outcome with
    | .ok out =>
      ((acc.1.1 ++ out.1.map (fun r => { r with filename := some f.filename }),
        acc.1.2 ++ out.2.map (fun r => { r with filename := some f.filename })), acc.2)
    | .error msg => (acc.1, acc.2 ++ [(f.filename, msg)])) (([], []), [])

end DA

namespace DOE

/-! ### DOE fuel parser (`doe_parser.js`) -/

def SOURCE : String := "DOE"

/-- Default date used when no filename pattern matches. -/
def DATE : String := "2025-06-17"

/-- The DOE `datePatterns` are the first five DA patterns (source duplicates
the array literally). -/
def datePatterns : List Regex :=
  [DA.datePat1, DA.datePat2, DA.datePat3, DA.datePat4, DA.datePat5]

/-- The DOE branch on a successful pattern match: both branches return. -/
def dateOfMatch (m : JsMatch) : Option String :=
  let g1 := (m.get 1).getD ""
  let g2 := (m.get 2).getD ""
  let g3 := (m.get 3).getD ""
  if g1.length = 4 then some (g1 ++ "-" ++ g2 ++ "-" ++ g3)
  else some (g3 ++ "-" ++ jsPadStart2 g1 ++ "-" ++ jsPadStart2 g2)

/-- `extractDateFromFilename` of the DOE parser. -/
def extractDateFromFilename (filename : String) : String :=
  (datePatterns.findSome? (fun pat => (jsMatch pat filename).bind dateOfMatch)).getD DATE

/-- `RON\s+\d+` alternative. -/
def ronAlt : Regex := rcat [rstri "RON", spacePlus, digitPlus]

/-- `DIESEL(?:\s+PLUS)?` alternative. -/
def dieselAlt : Regex := .seq (rstri "DIESEL") (.opt (.seq spacePlus (rstri "PLUS")))

/-- Fuel-type header test: `/^(RON\s+\d+|DIESEL(?:\s+PLUS)?|KEROSENE)\s*$/i`. -/
def fuelTypeRe : Regex :=
  rcat [.bol, .group 1 (.alt ronAlt (.alt dieselAlt (rstri "KEROSENE"))), spaceStar, .eol]

/-- Price scan `/\d+\.\d{2}/g`. -/
def priceRe : Regex := rcat [digitPlus, rchar '.', repExact 2 rdigit]

/-- Section-boundary test:
`/^(RON\s+\d+|DIESEL(?:\s+PLUS)?|KEROSENE|PROVINCE|CITY|MUNICIPALITY|PRODUCT)\s*$/i`. -/
def boundaryRe : Regex :=
  rcat [.bol,
        .group 1 (.alt ronAlt (.alt dieselAlt (.alt (rstri "KEROSENE")
          (.alt (rstri "PROVINCE") (.alt (rstri "CITY")
            (.alt (rstri "MUNICIPALITY") (rstri "PRODUCT"))))))),
        spaceStar, .eol]

/-- Records extracted from one line while `currentFuelType` is active: every
`\d+\.\d{2}` match becomes a record unless the price is out of `(0, 200]` or
the line contains `page`, `none` or `monitoring`. -/
def entriesOfLine (currentFuelType region date line : String) : List DOEEntry :=
  (jsMatchAll priceRe line).filterMap (fun priceStr =>
    match parseFloatQ priceStr with
    | none => none
    | some price =>
      if price ≤ 0 || 200 < price then none
      else
        let ll := jsToLower line
        if jsIncludes ll "page" || jsIncludes ll "none" || jsIncludes ll "monitoring" then none
        else
          let fuelCategory :=
            if jsIncludes currentFuelType "DIESEL" then "diesel"
            else if jsIncludes currentFuelType "KEROSENE" then "kerosene"
            else "gasoline"
          some { commodity := currentFuelType
                 unit := "per liter"
                 price := price
                 source := SOURCE
                 region := region
                 date := date
                 fuelType := fuelCategory
                 brand := none
                 filename := none })

/-- One iteration of the DOE line loop; the state is
`(currentFuelType, results)`.  A fuel-type header sets the state and emits
nothing; otherwise, with an active fuel type, prices are extracted and then
the boundary test may clear the state. -/
def doeStep (region date : String) (st : Option String × List DOEEntry)
    (rawLine : String) : Option String × List DOEEntry :=
  let line := jsTrim rawLine
  if line = "" || line.length < 2 then st
  else
    match jsMatch fuelTypeRe line with
    | some m => (some (jsToUpper ((m.get 1).getD "")), st.2)
    | none =>
      match st.1 with
      | none => st
      | some fuel =>
        let acc := st.2 ++ entriesOfLine fuel region date line
        if jsTest boundaryRe line then (none, acc) else (st.1, acc)

/-- `extractPricesFromText` of the DOE parser. -/
def extractPricesFromText (text region date : String) : List DOEEntry :=
  ((jsSplitChar '\n' text).foldl (doeStep region date) (none, [])).2

/-- A DOE bulletin file modelled by its name and the outcome `parseDOEPDF`
would produce (records, or the thrown error's message). -/
structure DOEFile where
  filename : String
  outcome : Except String (List DOEEntry)

/-- The per-file try/catch loop of `parseAllDOEPDFs`. -/
def parseAllDOEPDFs (files : List DOEFile) : List DOEEntry × List (String × String) :=
  files.foldl (fun acc f =>
    match f.outcome with
    | .ok results =>
      (acc.1 ++ results.map (fun r => { r with filename := some f.filename }), acc.2)
    | .error msg => (acc.1, acc.2 ++ [(f.filename, msg)])) ([], [])

end DOE

namespace DTI

/-! ### DTI SRP parser (`dti_parser.js`) -/

def DATE : String := "2025-02-01"
def SOURCE : String := "DTI"
def REGION : String := "National"

/-- JavaScript `.` (any character but a line terminator). -/
def dotAny : Regex := .cls (fun c => c ≠ '\n' && c ≠ '\r')

/-- Lazy prefix capture `(.*?)`. -/
def lazyPrefixG (i : Nat) : Regex := .group i (.starLazy dotAny)

/-- Amount-with-unit capture `(\d+(?:g|ml|pcs|L|kg))` under the `i` flag. -/
def unitG (i : Nat) : Regex :=
  .group i (.seq digitPlus
    (.alt (rstri "g") (.alt (rstri "ml") (.alt (rstri "pcs") (.alt (rstri "L") (rstri "kg"))))))

/-- Two-decimal price capture `(\d+\.\d{2})`. -/
def price2G (i : Nat) : Regex := .group i (rcat [digitPlus, rchar '.', repExact 2 rdigit])

/-- DTI pattern 1: `/^(.*?)\s+(\d+(?:g|ml|pcs|L|kg))\s+(\d+\.\d{2})$/i`. -/
def linePat1 : Regex := rcat [.bol, lazyPrefixG 1, spacePlus, unitG 2, spacePlus, price2G 3, .eol]

/-- DTI pattern 2: `/^(.*?)\s+(\d+\.\d{2})\s+(\d+(?:g|ml|pcs|L|kg))$/i`. -/
def linePat2 : Regex := rcat [.bol, lazyPrefixG 1, spacePlus, price2G 2, spacePlus, unitG 3, .eol]

/-- DTI pattern 3: `/^(.*?)\s+(\d+(?:g|ml|pcs|L|kg))\s+(\d+(?:\.\d{1,2})?)$/i`. -/
def linePat3 : Regex := rcat [.bol, lazyPrefixG 1, spacePlus, unitG 2, spacePlus, numG 3, .eol]

/-- DTI pattern 4: `/^(.*?)\s+(\d+(?:\.\d{1,2})?)$/i`. -/
def linePat4 : Regex := rcat [.bol, lazyPrefixG 1, spacePlus, numG 2, .eol]

/-- The `LINE_PATTERNS` array, in source order. -/
def LINE_PATTERNS : List Regex := [linePat1, linePat2, linePat3, linePat4]

/-- Variable assignments per pattern index: `(commodity, unit, price)`;
pattern 4 defaults the unit to `"unit"`. -/
def dtiAssign (patternIndex : Nat) (m : JsMatch) :
    Option String × Option String × Option String :=
  match patternIndex with
  | 0 => (m.get 1, m.get 2, m.get 3)
  | 1 => (m.get 1, m.get 3, m.get 2)
  | 2 => (m.get 1, m.get 2, m.get 3)
  | _ => (m.get 1, some "unit", m.get 2)

/-- Boilerplate tokens rejected in a commodity string by the DTI parser. -/
def dtiHeaderWords : List String := ["page", "srp", "bulletin"]

/-- The record extracted from one already-trimmed line, if any.  Note that the
price is parsed with no positivity or range check. -/
def recordOfLine (line : String) : Option DTIEntry :=
  match (LINE_PATTERNS.enum.findSome? (fun ip =>
      (jsMatch ip.2 line).map (fun m => (ip.1, m)))) with
  | none => none
  | some (patternIndex, m) =>
    let a := dtiAssign patternIndex m
    let commodity := jsCollapseWhitespace (jsTrim ((a.1).getD ""))
    let lc := jsToLower commodity
    if commodity.length < 2 || dtiHeaderWords.any (fun w => jsIncludes lc w) then none
    else
      some { commodity := commodity
             unit := match a.2.1 with | some u => jsTrim u | none => "unit"
             price := parseFloatQ ((a.2.2).getD "")
             source := SOURCE
             region := REGION
             date := DATE }

/-- The line loop of `parseDTIPDF` applied to the extracted PDF text. -/
def parseDTIText (text : String) : List DTIEntry :=
  (jsSplitChar '\n' text).filterMap (fun line =>
    let trimmed := jsTrim line
    if trimmed = "" || trimmed.length < 5 then none
    else recordOfLine trimmed)

/-- Observable output behaviour of the DTI entry point once `parseDTIPDF` has
returned `entries`: the console reports the full count, while the file
`latest_prices_dti.json` is written (when any entry exists) with
`entries.slice(0, 10)` only. -/
def mainOutput (entries : List DTIEntry) : Nat × Option (List DTIEntry) :=
  (entries.length, if entries.length = 0 then none else some (entries.take 10))

end DTI

namespace Normalizer

/-! ### `priceNormalizer.js` utilities -/

/-- The `unitMap` table, in source order. -/
def unitMap : List (String × List String) :=
  [("per kg", ["per kg", "per kilogram", "kg", "kilogram", "kilo"]),
   ("per liter", ["per liter", "per l", "liter", "litro", "l"]),
   ("per piece", ["per piece", "per pc", "piece", "pc", "pcs"]),
   ("per dozen", ["per dozen", "per dz", "dozen", "dz"]),
   ("per sack", ["per sack", "sack", "sacks"]),
   ("per bundle", ["per bundle", "bundle", "bundles"])]

/-- The variant test of `extractUnit`: the single-letter variant `"l"` matches
only the whole token `"l"` or `"per l"`; every other variant matches by
substring. -/
def variantMatches (lowerText variant : String) : Bool :=
  if variant = "l" then lowerText = "l" || lowerText = "per l"
  else jsIncludes lowerText variant

/-- `extractUnit`. -/
def extractUnit (text : String) : String :=
  if text = "" then "per unit"
  else
    let lowerText := jsTrim (jsToLower text)
    match unitMap.find? (fun p => p.2.any (fun v => variantMatches lowerText v)) with
    | some p => p.1
    | none => "per unit"

end Normalizer

/-- Formalization of the claim's phrase "well-formed calendar date": a string
`YYYY-MM-DD` of digits with a month in `1..12` and a day in `1..31`. -/
def isWellFormedCalendarDate (s : String) : Bool :=
  match jsSplitChar '-' s with
  | [y, m, d] =>
    y.length = 4 && m.length = 2 && d.length = 2 &&
    y.data.all jsIsDigit && m.data.all jsIsDigit && d.data.all jsIsDigit &&
    1 ≤ digitsToNat m.data && digitsToNat m.data ≤ 12 &&
    1 ≤ digitsToNat d.data && digitsToNat d.data ≤ 31
  | _ => false

/-! ### Invariant lemmas

The parsers accumulate records with `List.foldl`; the lemmas below transport a
per-line emission property through the fold. -/

/-- A property preserved by every step holds of every fold result. -/
theorem foldl_inv {σ α : Type} (P : σ → Prop) (step : σ → α → σ)
    (hstep : ∀ s a, P s → P (step s a)) :
    ∀ (l : List α) (s : σ), P s → P (l.foldl step s) := by
  intro l
  induction l with
  | nil => intro s hs; simpa using hs
  | cons a l ih => intro s hs; exact ih _ (hstep s a hs)

/-- Every range record emitted for one NCR line has positive ordered bounds
and its average is exactly the midpoint of its bounds. -/
theorem mem_ncrRangesOfLine {mkt region date line : String} {e : RangeEntry}
    (h : e ∈ DA.ncrRangesOfLine mkt region date line) :
    0 < e.minPrice ∧ e.minPrice ≤ e.maxPrice ∧
      e.averagePrice = (e.minPrice + e.maxPrice) / 2 := by
  simp only [DA.ncrRangesOfLine, List.mem_flatMap, List.mem_filterMap] at h
  obtain ⟨pat, -, m, -, hm⟩ := h
  split at hm
  · split at hm
    · split at hm
      · rename_i minPrice maxPrice _ _ hcond
        obtain ⟨h1, -, h3⟩ := hcond
        cases hm
        refine ⟨h1, h3, rfl⟩
      · exact absurd hm (by simp)
    · exact absurd hm (by simp)
  · exact absurd hm (by simp)

/-- The NCR per-line invariant transported through the whole parse. -/
theorem parseNCRFormat_ranges_inv {lines : List String} {region date : String}
    {e : RangeEntry} (h : e ∈ (DA.parseNCRFormat lines region date).2) :
    0 < e.minPrice ∧ e.minPrice ≤ e.maxPrice ∧
      e.averagePrice = (e.minPrice + e.maxPrice) / 2 := by
  have inv := foldl_inv
    (fun st : String × List RangeEntry => ∀ x ∈ st.2,
      0 < x.minPrice ∧ x.minPrice ≤ x.maxPrice ∧
      x.averagePrice = (x.minPrice + x.maxPrice) / 2)
    (DA.ncrStep region date) ?_ lines ("", []) (by simp)
  · exact inv e h
  · intro st a hst x hx
    simp only [DA.ncrStep] at hx
    split at hx
    · exact hst x hx
    · split at hx
      · exact hst x hx
      · rcases List.mem_append.1 hx with hmem | hmem
        · exact hst x hmem
        · exact mem_ncrRangesOfLine hmem

/-- Every range record emitted for one RX data line has positive ordered
bounds (its average is the mean of all extracted numbers, checked against the
bounds only by the guard). -/
theorem mem_rxRangesOfLine {cat comm region date line : String} {e : RangeEntry}
    (h : e ∈ DA.rxRangesOfLine cat comm region date line) :
    0 < e.minPrice ∧ e.minPrice ≤ e.maxPrice := by
  simp only [DA.rxRangesOfLine, List.mem_flatMap, List.mem_filterMap] at h
  obtain ⟨pat, -, m, -, hm⟩ := h
  split at hm
  · split at hm
    · split at hm
      · rename_i hcond
        obtain ⟨h1, -, h3⟩ := hcond
        cases hm
        exact ⟨h1, h3⟩
      · exact absurd hm (by simp)
    · exact absurd hm (by simp)
  · exact absurd hm (by simp)

/-- The RX per-line invariant transported through the whole parse. -/
theorem parseRXFormat_ranges_inv {lines : List String} {region date : String}
    {e : RangeEntry} (h : e ∈ (DA.parseRXFormat lines region date).2) :
    0 < e.minPrice ∧ e.minPrice ≤ e.maxPrice := by
  have inv := foldl_inv
    (fun st : String × String × List RangeEntry => ∀ x ∈ st.2.2,
      0 < x.minPrice ∧ x.minPrice ≤ x.maxPrice)
    (DA.rxStep region date) ?_ lines ("", "", []) (by simp)
  · exact inv e h
  · intro st a hst x hx
    simp only [DA.rxStep] at hx
    split at hx
    · exact hst x hx
    · split at hx
      · exact hst x hx
      · split at hx
        · exact hst x hx
        · rcases List.mem_append.1 hx with hmem | hmem
          · exact hst x hmem
          · exact mem_rxRangesOfLine hmem

/-- Every single-price record emitted for one generic-format line passes the
explicit `> 0` and `< 10000` sanity checks. -/
theorem mem_genericRecords_single {region date line : String} {p : PriceEntry}
    (h : p ∈ (DA.genericRecordsOfLine region date line).1) :
    0 < p.price ∧ p.price < 10000 := by
  simp only [DA.genericRecordsOfLine] at h
  split at h
  · simp at h
  · split at h
    · simp at h
    · dsimp only at h
      split at h
      · split at h
        · split at h
          · rename_i hcond
            rw [List.mem_singleton] at h
            subst h
            exact hcond
          · simp at h
        · simp at h
      · simp at h

/-- Every range record emitted for one generic-format line has positive
ordered bounds and midpoint average. -/
theorem mem_genericRecords_range {region date line : String} {e : RangeEntry}
    (h : e ∈ (DA.genericRecordsOfLine region date line).2) :
    0 < e.minPrice ∧ e.minPrice ≤ e.maxPrice ∧
      e.averagePrice = (e.minPrice + e.maxPrice) / 2 := by
  simp only [DA.genericRecordsOfLine] at h
  split at h
  · simp at h
  · split at h
    · simp at h
    · dsimp only at h
      split at h
      · split at h
        · split at h
          · rename_i hcond
            obtain ⟨h1, -, h3⟩ := hcond
            rw [List.mem_singleton] at h
            subst h
            exact ⟨h1, h3, rfl⟩
          · simp at h
        · simp at h
      · simp at h

/-- The generic-format single-price invariant transported through the parse. -/
theorem parseGenericFormat_single_inv {lines : List String} {region date : String}
    {p : PriceEntry} (h : p ∈ (DA.parseGenericFormat lines region date).1) :
    0 < p.price ∧ p.price < 10000 := by
  have inv := foldl_inv
    (fun st : List PriceEntry × List RangeEntry => ∀ x ∈ st.1,
      0 < x.price ∧ x.price < 10000)
    (DA.genStep region date) ?_ lines ([], []) (by simp)
  · exact inv p h
  · intro st a hst x hx
    simp only [DA.genStep] at hx
    split at hx
    · exact hst x hx
    · rcases List.mem_append.1 hx with hmem | hmem
      · exact hst x hmem
      · exact mem_genericRecords_single hmem

/-- The generic-format range invariant transported through the parse. -/
theorem parseGenericFormat_ranges_inv {lines : List String} {region date : String}
    {e : RangeEntry} (h : e ∈ (DA.parseGenericFormat lines region date).2) :
    0 < e.minPrice ∧ e.minPrice ≤ e.maxPrice ∧
      e.averagePrice = (e.minPrice + e.maxPrice) / 2 := by
  have inv := foldl_inv
    (fun st : List PriceEntry × List RangeEntry => ∀ x ∈ st.2,
      0 < x.minPrice ∧ x.minPrice ≤ x.maxPrice ∧
      x.averagePrice = (x.minPrice + x.maxPrice) / 2)
    (DA.genStep region date) ?_ lines ([], []) (by simp)
  · exact inv e h
  · intro st a hst x hx
    simp only [DA.genStep] at hx
    split at hx
    · exact hst x hx
    · rcases List.mem_append.1 hx with hmem | hmem
      · exact hst x hmem
      · exact mem_genericRecords_range hmem

/-- Every DOE record emitted for one line under an active fuel type has a
price in `(0, 200]`, unit `per liter` and the active fuel type as commodity. -/
theorem mem_doeEntriesOfLine {fuel region date line : String} {d : DOEEntry}
    (h : d ∈ DOE.entriesOfLine fuel region date line) :
    0 < d.price ∧ d.price ≤ 200 ∧ d.unit = "per liter" ∧ d.commodity = fuel := by
  simp only [DOE.entriesOfLine, List.mem_filterMap] at h
  obtain ⟨priceStr, -, hm⟩ := h
  split at hm
  · exact absurd hm (by simp)
  · split at hm
    · exact absurd hm (by simp)
    · split at hm
      · exact absurd hm (by simp)
      · rename_i price _ hcond _
        cases hm
        refine ⟨?_, ?_, rfl, rfl⟩
        · simp only [Bool.or_eq_true, decide_eq_true_eq, not_or] at hcond
          exact lt_of_not_le hcond.1
        · simp only [Bool.or_eq_true, decide_eq_true_eq, not_or] at hcond
          exact le_of_not_lt hcond.2

/-- The DOE price invariant transported through the whole parse. -/
theorem doeExtract_inv {text region date : String} {d : DOEEntry}
    (h : d ∈ DOE.extractPricesFromText text region date) :
    0 < d.price ∧ d.price ≤ 200 ∧ d.unit = "per liter" := by
  have inv := foldl_inv
    (fun st : Option String × List DOEEntry => ∀ x ∈ st.2,
      0 < x.price ∧ x.price ≤ 200 ∧ x.unit = "per liter")
    (DOE.doeStep region date) ?_ (jsSplitChar '\n' text) (none, []) (by simp)
  · exact inv d h
  · intro st a hst x hx
    simp only [DOE.doeStep] at hx
    split at hx
    · exact hst x hx
    · split at hx
      · exact hst x hx
      · split at hx
        · exact hst x hx
        · rename_i fuel
          split at hx
          · rcases List.mem_append.1 hx with hmem | hmem
            · exact hst x hmem
            · obtain ⟨h1, h2, h3, -⟩ := mem_doeEntriesOfLine hmem
              exact ⟨h1, h2, h3⟩
          · rcases List.mem_append.1 hx with hmem | hmem
            · exact hst x hmem
            · obtain ⟨h1, h2, h3, -⟩ := mem_doeEntriesOfLine hmem
              exact ⟨h1, h2, h3⟩

/-- If `extractUnit` answers `"per liter"`, the lower-cased trimmed input
either is exactly the token `l` / `per l` or contains one of the multi-letter
liter variants as a substring — the single letter `l` never matches as a
substring of an unrelated word. -/
theorem extractUnit_perLiter_char (s : String)
    (h : Normalizer.extractUnit s = "per liter") :
    jsTrim (jsToLower s) = "l" ∨ jsTrim (jsToLower s) = "per l" ∨
    jsIncludes (jsTrim (jsToLower s)) "per liter" = true ∨
    jsIncludes (jsTrim (jsToLower s)) "per l" = true ∨
    jsIncludes (jsTrim (jsToLower s)) "liter" = true ∨
    jsIncludes (jsTrim (jsToLower s)) "litro" = true := by
  by_cases hs : s = ""
  · rw [hs] at h
    exact absurd h (by decide)
  · simp only [Normalizer.extractUnit, if_neg hs, Normalizer.unitMap, List.find?,
      List.any_cons, List.any_nil, Normalizer.variantMatches] at h
    split at h <;> try exact absurd h (by decide)
    rename_i p heq
    split at heq
    · cases heq; exact absurd h (by decide)
    · split at heq
      · rename_i hcond
        simp only [reduceIte, if_true, Bool.or_eq_true, Bool.or_false,
          decide_eq_true_eq] at hcond
        tauto
      · split at heq
        · cases heq; exact absurd h (by decide)
        · split at heq
          · cases heq; exact absurd h (by decide)
          · split at heq
            · cases heq; exact absurd h (by decide)
            · split at heq
              · cases heq; exact absurd h (by decide)
              · exact absurd heq (by simp)

/-! ### Claims -/

set_option maxRecDepth 100000
set_option maxHeartbeats 1600000

/- The Batteries rational operations are `@[irreducible]`; the concrete
evaluations below go through `decide`, which needs them to unfold. -/
attribute [local semireducible] Rat.add Rat.mul Rat.sub Rat.inv Rat.ofScientific

/-- Claim C1, corrected.  The claim that every range record of the NCR, RX and
generic parsers has `averagePrice = (minPrice + maxPrice) / 2` fails for the
RX parser, which sets `averagePrice` to the arithmetic mean of all extracted
numbers; the property does hold, by construction, for every range record of
the NCR parser and of the generic parser. -/
theorem claimC1_amended (lines : List String) (region date : String) (e : RangeEntry)
    (h : e ∈ (DA.parseNCRFormat lines region date).2) :
    e.averagePrice = (e.minPrice + e.maxPrice) / 2 ∧
    ∀ (glines : List String) (gregion gdate : String) (e2 : RangeEntry),
      e2 ∈ (DA.parseGenericFormat glines gregion gdate).2 →
      e2.averagePrice = (e2.minPrice + e2.maxPrice) / 2 :=
  ⟨(parseNCRFormat_ranges_inv h).2.2,
   fun _ _ _ _ h2 => (parseGenericFormat_ranges_inv h2).2.2⟩

/-- Witness for C1: the NCR scenario record has midpoint average. -/
theorem claimC1_witness :
    ((93 : ℚ)/2) = (45 + 48) / 2 :=
  (claimC1_amended ["Balintawak (Cloverleaf) Market", "45.00-48.00"] "NCR" "2025-06-26"
    { commodity := "Rice at Balintawak (Cloverleaf) Market", unit := "per kg",
      minPrice := 45, maxPrice := 48, averagePrice := (93 : ℚ)/2, source := "DA",
      region := "NCR", date := "2025-06-26", category := "rice", hasRange := true,
      filename := none, market := some "Balintawak (Cloverleaf) Market",
      categoryHeader := none }
    (by decide)).1

/-- Counterexample for C1: the RX parser, fed the commodity header `Special`
and a data line of six concatenated numbers `40, 50, 40, 40, 40, 40`, emits a
range record whose `averagePrice` is the mean `125/3` rather than the midpoint
`(40 + 50) / 2 = 45`. -/
theorem claimC1_counterexample :
    ∃ e ∈ (DA.parseRXFormat ["Special", "40.0050.0040.0040.0040.0040.00"]
      "RX" "2025-06-26").2,
      e.averagePrice ≠ (e.minPrice + e.maxPrice) / 2 := by
  decide

/-- Claim C2, corrected.  Every `PriceRecord` of the DOE parser and of the DA
generic parser has a positive price (the generic parser additionally enforces
`price < 10000`); the DTI parser, however, performs no positivity check and
can emit a record with price `0`. -/
theorem claimC2_amended (text dregion ddate : String) (glines : List String)
    (gregion gdate : String) (d : DOEEntry) (p : PriceEntry)
    (hd : d ∈ DOE.extractPricesFromText text dregion ddate)
    (hp : p ∈ (DA.parseGenericFormat glines gregion gdate).1) :
    0 < d.price ∧ 0 < p.price ∧ p.price < 10000 :=
  ⟨(doeExtract_inv hd).1, (parseGenericFormat_single_inv hp).1,
   (parseGenericFormat_single_inv hp).2⟩

/-- Witness for C2: a DOE record at price 56.49 and a generic record at 45.50. -/
theorem claimC2_witness :
    (0 : ℚ) < 5649/100 ∧ (0 : ℚ) < 91/2 ∧ (91 : ℚ)/2 < 10000 := by
  have h := claimC2_amended "RON 95\n56.49\n58.49" "Luzon" "2025-06-17"
    ["Rice 45.50-55.75"] "Region III" "2025-06-26"
    { commodity := "RON 95", unit := "per liter", price := (5649 : ℚ)/100,
      source := "DOE", region := "Luzon", date := "2025-06-17",
      fuelType := "gasoline", brand := none, filename := none }
    { commodity := "Rice", unit := "per kg", price := (91 : ℚ)/2, source := "DA",
      region := "Region III", date := "2025-06-26", category := "rice",
      hasRange := false, filename := none }
    (by decide) (by decide)
  exact h

/-- Counterexample for C2: the DTI parser emits a record with price `0` for the
line `Rice 0` (pattern 4 `commodity price` matches and no positivity check is
applied), so a non-positive candidate is not discarded. -/
theorem claimC2_counterexample :
    DTI.parseDTIText "Rice 0" =
      [{ commodity := "Rice", unit := "unit", price := some 0, source := "DTI",
         region := "National", date := "2025-02-01" }] := by
  decide

/-- Claim C3, corrected.  For a line `commodity min-max` the five generic
patterns are indeed tried in their stated order with first match winning, but
the first pattern (`commodity price`) already matches such a line, so the
parser emits one single-price record whose price is the min bound (when
`0 < min < 10000`) and no range record at all; the range pattern is shadowed.
In particular `Rice 45.50-55.75` yields exactly one `PriceRecord` at `45.50`. -/
theorem claimC3_amended :
    DA.parseGenericFormat ["Rice 45.50-55.75"] "Region III" "2025-06-26" =
      ([{ commodity := "Rice", unit := "per kg", price := (91 : ℚ)/2,
          source := "DA", region := "Region III", date := "2025-06-26",
          category := "rice", hasRange := false, filename := none }], []) := by
  decide

/-- Counterexample for C3: the line `Rice 45.50-55.75` of the claimed shape
produces no `PriceRangeRecord` whatsoever. -/
theorem claimC3_counterexample :
    (DA.parseGenericFormat ["Rice 45.50-55.75"] "Region III" "2025-06-26").2 = [] := by
  decide

/-- Claim C4, corrected.  The two-line scenario holds exactly as stated: one
record with bounds 45/48 and average 46.5, tagged with the market.  (The
general per-line count claim fails, see the counterexample: the three
increasingly long concatenated-range patterns each re-emit overlapping
matches, so a line with two range tokens yields three records.) -/
theorem claimC4_amended :
    DA.parseNCRFormat ["Balintawak (Cloverleaf) Market", "45.00-48.00"]
      "NCR" "2025-06-26" =
    ([], [{ commodity := "Rice at Balintawak (Cloverleaf) Market", unit := "per kg",
            minPrice := 45, maxPrice := 48, averagePrice := (93 : ℚ)/2,
            source := "DA", region := "NCR", date := "2025-06-26",
            category := "rice", hasRange := true, filename := none,
            market := some "Balintawak (Cloverleaf) Market",
            categoryHeader := none }]) := by
  decide

/-- Counterexample for C4: the single line `45.00-48.0050.00-55.00` contains
exactly two distinct range tokens (45-48 and 50-55) but produces three
records — the two-range pattern re-emits the 45-48 range already found by the
single-range pattern. -/
theorem claimC4_counterexample :
    (DA.parseNCRFormat ["45.00-48.0050.00-55.00"] "NCR" "2025-06-26").2.length = 3 ∧
    (DA.parseNCRFormat ["45.00-48.0050.00-55.00"] "NCR" "2025-06-26").2.map
      (fun e => (e.minPrice, e.maxPrice)) = [(45, 48), (50, 55), (45, 48)] := by
  decide

/-- Claim C5, confirmed.  Every range record emitted by the NCR, RX and
generic parsers satisfies `0 < minPrice ≤ maxPrice`: each parser guards the
construction with `minPrice > 0 && maxPrice > 0 && maxPrice >= minPrice` and a
candidate failing the guard is silently skipped (the parsers are total
functions that emit no record and raise nothing for it). -/
theorem claimC5_bounds (nlines rlines : List String) (region date : String)
    (e1 e2 : RangeEntry)
    (h1 : e1 ∈ (DA.parseNCRFormat nlines region date).2)
    (h2 : e2 ∈ (DA.parseRXFormat rlines region date).2) :
    (0 < e1.minPrice ∧ e1.minPrice ≤ e1.maxPrice) ∧
    (0 < e2.minPrice ∧ e2.minPrice ≤ e2.maxPrice) ∧
    ∀ (glines : List String) (gregion gdate : String) (e3 : RangeEntry),
      e3 ∈ (DA.parseGenericFormat glines gregion gdate).2 →
      0 < e3.minPrice ∧ e3.minPrice ≤ e3.maxPrice := by
  refine ⟨?_, parseRXFormat_ranges_inv h2, ?_⟩
  · have h := parseNCRFormat_ranges_inv h1
    exact ⟨h.1, h.2.1⟩
  · intro _ _ _ _ h3
    have h := parseGenericFormat_ranges_inv h3
    exact ⟨h.1, h.2.1⟩

/-- Witness for C5: concrete NCR and RX records with positive ordered bounds. -/
theorem claimC5_witness :
    ((0 : ℚ) < 45 ∧ (45 : ℚ) ≤ 48) ∧ ((0 : ℚ) < 40 ∧ (40 : ℚ) ≤ 50) := by
  have h := claimC5_bounds ["Balintawak (Cloverleaf) Market", "45.00-48.00"]
    ["Special", "40.0050.0040.0040.0040.0040.00"] "NCR" "2025-06-26"
    { commodity := "Rice at Balintawak (Cloverleaf) Market", unit := "per kg",
      minPrice := 45, maxPrice := 48, averagePrice := (93 : ℚ)/2, source := "DA",
      region := "NCR", date := "2025-06-26", category := "rice", hasRange := true,
      filename := none, market := some "Balintawak (Cloverleaf) Market",
      categoryHeader := none }
    { commodity := "Special", unit := "per kg", minPrice := 40, maxPrice := 50,
      averagePrice := (125 : ℚ)/3, source := "DA", region := "NCR",
      date := "2025-06-26", category := "rice", hasRange := true,
      filename := none, market := none, categoryHeader := some "" }
    (by decide) (by decide)
  exact ⟨h.1, h.2.1⟩

/-- Claim C6, corrected.  Both cited filenames match none of the return
branches (the month-name pattern requires whitespace, which the hyphenated and
underscored filenames lack), so both fall back to the parser default — which
for the DA parser happens to be `2025-06-26`, making the first cited equation
hold via the fallback; and the returned string is not always a well-formed
calendar date (see the counterexample). -/
theorem claimC6_amended :
    DA.extractDateFromFilename "Price-Monitoring-June-26-2025.pdf" = "2025-06-26" ∧
    DA.extractDateFromFilename "Price-Monitoring-June-26-2025.pdf" = DA.DATE ∧
    DA.extractDateFromFilename "BNPC_SRP_BULLETIN_01_FEBRUARY_2025.pdf" = DA.DATE ∧
    DOE.extractDateFromFilename "BNPC_SRP_BULLETIN_01_FEBRUARY_2025.pdf" = DOE.DATE := by
  decide

/-- Counterexample for C6: on the filename `99999999.pdf` the first pattern
(`MMDDYYYY` digit run) matches and the function returns `9999-99-99`, which is
not a well-formed calendar date; so the function does not always return a
well-formed calendar date. -/
theorem claimC6_counterexample :
    DA.extractDateFromFilename "99999999.pdf" = "9999-99-99" ∧
    isWellFormedCalendarDate "9999-99-99" = false := by
  decide

/-- Claim C7, corrected.  The scenario holds exactly: after the header line
`RON 95` the two price lines yield two records with commodity `RON 95`, unit
`per liter` and prices 56.49 and 58.49.  (The universally quantified part of
the claim fails: a line containing `page`, `none` or `monitoring` is skipped
even when it carries an in-range price, see the counterexample.) -/
theorem claimC7_amended :
    DOE.extractPricesFromText "RON 95\n56.49\n58.49" "Luzon" "2025-06-17" =
      [{ commodity := "RON 95", unit := "per liter", price := (5649 : ℚ)/100,
         source := "DOE", region := "Luzon", date := "2025-06-17",
         fuelType := "gasoline", brand := none, filename := none },
       { commodity := "RON 95", unit := "per liter", price := (5849 : ℚ)/100,
         source := "DOE", region := "Luzon", date := "2025-06-17",
         fuelType := "gasoline", brand := none, filename := none }] := by
  decide

/-- Counterexample for C7: with `RON 95` active, the line `page 56.49` carries
the two-decimal number 56.49 in `(0, 200]`, yet no record is emitted because
the line contains `page`. -/
theorem claimC7_counterexample :
    DOE.extractPricesFromText "RON 95\npage 56.49" "Luzon" "2025-06-17" = [] := by
  decide

/-- Claim C8, confirmed.  `extractUnit` maps `per kilogram` to `per kg`;
`gallon` — which contains the letter `l` but no liter variant — maps to the
default `per unit`; the bare tokens `l` and `per l` (case-insensitively) do
map to `per liter`; and any input mapped to `per liter` either is exactly one
of those whole tokens or contains a multi-letter liter variant as a substring,
so the single-letter variant never fires inside an unrelated word. -/
theorem claimC8_extractUnit (s : String)
    (h : Normalizer.extractUnit s = "per liter") :
    Normalizer.extractUnit "per kilogram" = "per kg" ∧
    Normalizer.extractUnit "gallon" = "per unit" ∧
    Normalizer.extractUnit "l" = "per liter" ∧
    Normalizer.extractUnit "per l" = "per liter" ∧
    (jsTrim (jsToLower s) = "l" ∨ jsTrim (jsToLower s) = "per l" ∨
     jsIncludes (jsTrim (jsToLower s)) "per liter" = true ∨
     jsIncludes (jsTrim (jsToLower s)) "per l" = true ∨
     jsIncludes (jsTrim (jsToLower s)) "liter" = true ∨
     jsIncludes (jsTrim (jsToLower s)) "litro" = true) :=
  ⟨by decide, by decide, by decide, by decide, extractUnit_perLiter_char s h⟩

/-- Witness for C8 at the input `L`. -/
theorem claimC8_witness :
    Normalizer.extractUnit "per kilogram" = "per kg" ∧
    Normalizer.extractUnit "gallon" = "per unit" ∧
    Normalizer.extractUnit "l" = "per liter" ∧
    Normalizer.extractUnit "per l" = "per liter" ∧
    (jsTrim (jsToLower "L") = "l" ∨ jsTrim (jsToLower "L") = "per l" ∨
     jsIncludes (jsTrim (jsToLower "L")) "per liter" = true ∨
     jsIncludes (jsTrim (jsToLower "L")) "per l" = true ∨
     jsIncludes (jsTrim (jsToLower "L")) "liter" = true ∨
     jsIncludes (jsTrim (jsToLower "L")) "litro" = true) :=
  claimC8_extractUnit "L" (by decide)

/-- Claim C9, confirmed.  In a batch of three files where only the second
fails, the per-file try/catch of both batch loops yields exactly the records
of files 1 and 3 (each tagged with its filename) concatenated in order, plus
one logged failure for file 2. -/
theorem claimC9_isolation (n1 n2 n3 msg : String)
    (o1 o3 : List PriceEntry × List RangeEntry) (r1 r3 : List DOEEntry) :
    DA.parseAllDAPDFs [⟨n1, .ok o1⟩, ⟨n2, .error msg⟩, ⟨n3, .ok o3⟩] =
      ((o1.1.map (fun r => { r with filename := some n1 }) ++
          o3.1.map (fun r => { r with filename := some n3 }),
        o1.2.map (fun r => { r with filename := some n1 }) ++
          o3.2.map (fun r => { r with filename := some n3 })),
       [(n2, msg)]) ∧
    DOE.parseAllDOEPDFs [⟨n1, .ok r1⟩, ⟨n2, .error msg⟩, ⟨n3, .ok r3⟩] =
      (r1.map (fun r => { r with filename := some n1 }) ++
         r3.map (fun r => { r with filename := some n3 }),
       [(n2, msg)]) :=
  ⟨rfl, rfl⟩

/-- Claim C10, confirmed.  When the DTI entry point extracts more than 10
records, the artifact written to `latest_prices_dti.json` is exactly the first
10 of them — never the full list, whose length the console nevertheless
reports in full. -/
theorem claimC10_truncation (entries : List DTIEntry) (h : 10 < entries.length) :
    (DTI.mainOutput entries).2 = some (entries.take 10) ∧
    (entries.take 10).length = 10 ∧
    entries.take 10 ≠ entries ∧
    (DTI.mainOutput entries).1 = entries.length := by
  have hne : entries.length ≠ 0 := by omega
  refine ⟨by simp [DTI.mainOutput, hne], ?_, ?_, rfl⟩
  · simp only [List.length_take]
    omega
  · intro heq
    have := congrArg List.length heq
    simp only [List.length_take] at this
    omega

/-- Witness for C10 at a concrete list of 11 records. -/
theorem claimC10_witness :
    (DTI.mainOutput (List.replicate 11
        ({ commodity := "Rice", unit := "unit", price := some 45, source := "DTI",
           region := "National", date := "2025-02-01" } : DTIEntry))).2 =
      some ((List.replicate 11
        ({ commodity := "Rice", unit := "unit", price := some 45, source := "DTI",
           region := "National", date := "2025-02-01" } : DTIEntry)).take 10) ∧
    ((List.replicate 11
        ({ commodity := "Rice", unit := "unit", price := some 45, source := "DTI",
           region := "National", date := "2025-02-01" } : DTIEntry)).take 10).length = 10 ∧
    (List.replicate 11
        ({ commodity := "Rice", unit := "unit", price := some 45, source := "DTI",
           region := "National", date := "2025-02-01" } : DTIEntry)).take 10 ≠
      List.replicate 11
        ({ commodity := "Rice", unit := "unit", price := some 45, source := "DTI",
           region := "National", date := "2025-02-01" } : DTIEntry) ∧
    (DTI.mainOutput (List.replicate 11
        ({ commodity := "Rice", unit := "unit", price := some 45, source := "DTI",
           region := "National", date := "2025-02-01" } : DTIEntry))).1 =
      (List.replicate 11
        ({ commodity := "Rice", unit := "unit", price := some 45, source := "DTI",
           region := "National", date := "2025-02-01" } : DTIEntry)).length :=
  claimC10_truncation _ (by simp)

end PhPriceTracker
